import Mathlib

/-!
Shallow embedding of the tower-defense simulation engine of this repository.

The authoritative component is `src/src/components/TowerDefenseGame.tsx`
(TypeScript).  The repository also contains a legacy JavaScript version of the
same component (`src/unnamed/part_001`, `components/TowerDefenseGame.js`);
where the two differ (the tower cooldown test) both variants are embedded.

Conventions of the embedding:
* JavaScript numbers are modelled as exact rationals (`Rat`); the gold and
  lives counters, which only ever change by integer amounts, as `Int`.
* `Math.hypot(dx, dy) < r` is embedded as `dx*dx + dy*dy < r*r`, which is
  equivalent for the nonnegative radii used by the game (ranges 80-200, the
  arrival threshold 5 and the hit-detection radius 20).
* `Math.random()` is modelled as an injected stream `rand : Nat → Rat` of
  draws, consumed in the source's evaluation order (one draw per tower that
  passes the in-range-and-off-cooldown guard).
* The in-flight projectile movement `(dx/dist, dy/dist) * 5 * gameSpeed`
  involves an irrational norm; the per-tick step is therefore parametric in a
  `move : Projectile → Projectile` function.  No claim below depends on the
  in-flight position: the arrival decision is taken on the pre-move position
  and hits are resolved against the frozen target point.
* React state (`useState`) is modelled synchronously: a `setX` performed by
  the game loop is visible to the checks later in the same tick.
-/

namespace TDG

/-- Static tower archetype data, from the `towerTypes` registry of the
TypeScript component (cost, damage, range, accuracy, attack interval in
milliseconds, damage element, display color). -/
structure TowerType where
  cost : Int
  damage : Rat
  range : Rat
  accuracy : Rat
  attackSpeed : Rat
  element : String
  color : String
  deriving DecidableEq

/-- The `basic` archetype of the registry. -/
def basicType : TowerType :=
  { cost := 50, damage := 10, range := 100, accuracy := 0.8,
    attackSpeed := 1000, element := "fire", color := "blue" }

/-- The `sniper` archetype of the registry. -/
def sniperType : TowerType :=
  { cost := 100, damage := 30, range := 200, accuracy := 0.95,
    attackSpeed := 1500, element := "ice", color := "purple" }

/-- The `splash` archetype of the registry. -/
def splashType : TowerType :=
  { cost := 150, damage := 20, range := 80, accuracy := 0.7,
    attackSpeed := 1200, element := "electric", color := "green" }

/-- The `towerTypes` registry, looked up by type key; an unknown key (a
runtime `TypeError` in the JavaScript source) is `none`. -/
def towerTypes : String → Option TowerType
  | "basic" => some basicType
  | "sniper" => some sniperType
  | "splash" => some splashType
  | _ => none

/-- A placed tower (class `Tower`): position, type key and the wall-clock
time of its last attack attempt. -/
structure Tower where
  x : Rat
  y : Rat
  type : String
  lastShot : Rat
  deriving DecidableEq

/-- The `Tower` constructor: `lastShot` is initialised to `0`. -/
def Tower.new (x y : Rat) (ty : String) : Tower :=
  { x := x, y := y, type := ty, lastShot := 0 }

/-- `Tower.canShoot` of the TypeScript component:
`(currentTime - this.lastShot) > towerTypes[this.type].attackSpeed`.
The test takes no game-speed input. -/
def Tower.canShoot (tw : Tower) (currentTime : Rat) : Bool :=
  match towerTypes tw.type with
  | some tt => decide (currentTime - tw.lastShot > tt.attackSpeed)
  | none => false

/-- `Tower.canShoot` of the legacy JavaScript component
(`src/unnamed/part_001`): `(currentTime - this.lastShot) > (1000 / gameSpeed)`.
Here the cooldown threshold IS divided by the speed multiplier. -/
def Tower.canShootJS (tw : Tower) (currentTime gameSpeed : Rat) : Bool :=
  decide (currentTime - tw.lastShot > 1000 / gameSpeed)

/-- `Tower.shoot`: record the current time as the last attack attempt. -/
def Tower.shoot (tw : Tower) (currentTime : Rat) : Tower :=
  { tw with lastShot := currentTime }

/-- An enemy (class `Enemy`): position, health, track progress and its
per-element resistance table. -/
structure Enemy where
  x : Rat
  y : Rat
  health : Rat
  maxHealth : Rat
  progress : Rat
  resistances : List (String × Rat)
  deriving DecidableEq

/-- The `Enemy` constructor: `maxHealth` starts equal to `health`,
`progress` at `0`. -/
def Enemy.new (x y health : Rat) (resistances : List (String × Rat)) : Enemy :=
  { x := x, y := y, health := health, maxHealth := health, progress := 0,
    resistances := resistances }

/-- `Enemy.isAlive`: strictly positive health. -/
def Enemy.isAlive (e : Enemy) : Bool :=
  decide (e.health > 0)

/-- `Enemy.update`: advance progress by `1 * gameSpeed` and derive
`x = progress * 4`. -/
def Enemy.update (e : Enemy) (gameSpeed : Rat) : Enemy :=
  let p := e.progress + 1 * gameSpeed
  { e with progress := p, x := p * 4 }

/-- `Enemy.reachedEnd`: `progress >= 200`. -/
def Enemy.reachedEnd (e : Enemy) : Bool :=
  decide (e.progress ≥ 200)

/-- `Enemy.takeDamage`: `resistance = this.resistances[element] || 0`,
`effectiveDamage = damage * (1 - resistance)`, subtracted from health with
no floor clamp. -/
def Enemy.takeDamage (e : Enemy) (damage : Rat) (element : String) : Enemy :=
  let resistance := (e.resistances.lookup element).getD 0
  let effectiveDamage := damage * (1 - resistance)
  { e with health := e.health - effectiveDamage }

/-- The enemy produced by `spawnEnemy`: spawned at the track origin with
health 300 and the fixed resistance profile `fire 0.2, ice 0, electric 0.1`. -/
def spawnedEnemy : Enemy :=
  Enemy.new 0 200 300 [("fire", 0.2), ("ice", 0), ("electric", 0.1)]

/-- A projectile (class `Projectile`): current position, the frozen target
point, carried damage, display color and damage element. -/
structure Projectile where
  x : Rat
  y : Rat
  targetX : Rat
  targetY : Rat
  damage : Rat
  color : String
  element : String
  deriving DecidableEq

/-- Squared euclidean distance; `Math.hypot (x1-x2) (y1-y2) < r` in the
source is embedded as `dist2 x1 y1 x2 y2 < r*r`. -/
def dist2 (x1 y1 x2 y2 : Rat) : Rat :=
  (x1 - x2) * (x1 - x2) + (y1 - y2) * (y1 - y2)

/-- The engine-facing game state: the counters and entity collections of
the component, plus whether a next simulation step is scheduled
(`animationFrameId` being live). -/
structure SimState where
  gold : Int
  lives : Int
  towers : List Tower
  enemies : List Enemy
  projectiles : List Projectile
  placing : Option String
  scheduled : Bool
  deriving DecidableEq

/-- `addTower`: if `gold >= towerTypes[type].cost`, push a new tower and
deduct the cost; in every case clear placement-selection mode.  An unknown
type key (which would throw in JavaScript before any mutation) is `none`. -/
def addTower (s : SimState) (x y : Rat) (ty : String) : Option SimState :=
  match towerTypes ty with
  | none => none
  | some tt =>
      if tt.cost ≤ s.gold then
        some { s with towers := s.towers ++ [Tower.new x y ty],
                      gold := s.gold - tt.cost, placing := none }
      else
        some { s with placing := none }

/-- A sample state with the initial resources (`gold 200`, `lives 20`) and
`basic` selected for placement. -/
def stInit : SimState :=
  { gold := 200, lives := 20, towers := [], enemies := [], projectiles := [],
    placing := some "basic", scheduled := true }

/-- A sample state that cannot afford a `splash` tower (cost 150). -/
def stPoor : SimState :=
  { gold := 100, lives := 20, towers := [], enemies := [], projectiles := [],
    placing := some "splash", scheduled := true }

/-- C1: a placement attempt with `gold < cost` adds no tower and leaves
gold unchanged; with `gold >= cost` it adds exactly one tower and decreases
gold by exactly the cost. -/
theorem addTower_affordability (s : SimState) (x y : Rat) (ty : String)
    (tt : TowerType) (hty : towerTypes ty = some tt) :
    (s.gold < tt.cost →
      addTower s x y ty = some { s with placing := none })
    ∧ (tt.cost ≤ s.gold →
      addTower s x y ty
        = some { s with towers := s.towers ++ [Tower.new x y ty],
                        gold := s.gold - tt.cost, placing := none }) := by
  constructor
  · intro h
    simp only [addTower, hty]
    rw [if_neg (not_le.mpr h)]
  · intro h
    simp only [addTower, hty]
    rw [if_pos h]

/-- C1 witness: from 200 gold, placing a `basic` tower (cost 50) at (1,2)
adds exactly that tower and leaves 150 gold. -/
theorem addTower_affordability_witness :
    addTower stInit 1 2 "basic"
      = some { stInit with towers := stInit.towers ++ [Tower.new 1 2 "basic"],
                           gold := stInit.gold - basicType.cost,
                           placing := none } :=
  (addTower_affordability stInit 1 2 "basic" basicType rfl).2 (by decide)

/-- C8: every placement attempt that completes — affordable or not —
leaves placement-selection mode cleared. -/
theorem placement_clears_mode (s : SimState) (x y : Rat) (ty : String)
    (s' : SimState) (h : addTower s x y ty = some s') :
    s'.placing = none := by
  cases hty : towerTypes ty with
  | none =>
      simp only [addTower, hty] at h
      exact Option.noConfusion h
  | some tt =>
      simp only [addTower, hty] at h
      by_cases hc : tt.cost ≤ s.gold
      · rw [if_pos hc] at h
        injection h with h
        subst h
        rfl
      · rw [if_neg hc] at h
        injection h with h
        subst h
        rfl

/-- C8 witness: a failed placement (100 gold, `splash` costs 150) still
exits placement mode. -/
theorem placement_clears_mode_witness :
    SimState.placing { stPoor with placing := none } = none :=
  placement_clears_mode stPoor 1 2 "splash" { stPoor with placing := none }
    (by decide)

/-- C10: a freshly constructed tower has `lastShot = 0`, so at any
wall-clock time beyond its attack interval it already passes the cooldown
test — no initial cooldown wait after placement. -/
theorem new_tower_ready (x y : Rat) (ty : String) (tt : TowerType) (t : Rat)
    (hty : towerTypes ty = some tt) (ht : tt.attackSpeed < t) :
    (Tower.new x y ty).lastShot = 0
    ∧ (Tower.new x y ty).canShoot t = true := by
  refine ⟨rfl, ?_⟩
  unfold Tower.canShoot
  show (match towerTypes ty with
        | some tt => decide (t - (Tower.new x y ty).lastShot > tt.attackSpeed)
        | none => false) = true
  rw [hty]
  simp only [Tower.new, decide_eq_true_eq]
  linarith

/-- C10 witness: a sniper tower placed at (3,4) can already shoot at time
2000 ms (interval 1500 ms). -/
theorem new_tower_ready_witness :
    (Tower.new 3 4 "sniper").lastShot = 0
    ∧ (Tower.new 3 4 "sniper").canShoot 2000 = true :=
  new_tower_ready 3 4 "sniper" sniperType 2000 rfl (by decide)

/-- C5: a confirmed hit subtracts exactly
`damage * (1 - resistances[element] defaulting to 0)` from health, with no
floor clamp, and an enemy is alive exactly when `health > 0`.  Concretely,
on the spawned enemy, 10 fire damage against resistance 0.2 removes exactly
8 health, 10 ice damage against resistance 0 removes the raw 10, and a
5-health enemy hit for 10 ends at health −5. -/
theorem damage_resistance_model :
    (∀ (e : Enemy) (dmg : Rat) (elem : String),
      (e.takeDamage dmg elem).health
        = e.health - dmg * (1 - (e.resistances.lookup elem).getD 0)
      ∧ (e.isAlive = true ↔ 0 < e.health))
    ∧ (spawnedEnemy.takeDamage 10 "fire").health = 292
    ∧ (spawnedEnemy.takeDamage 10 "ice").health = 290
    ∧ ((Enemy.new 0 0 5 []).takeDamage 10 "fire").health = -5 := by
  refine ⟨fun e dmg elem => ⟨rfl, ?_⟩, ?_, ?_, ?_⟩
  · simp [Enemy.isAlive]
  · simp [Enemy.takeDamage, spawnedEnemy, Enemy.new, List.lookup]
    norm_num
  · simp [Enemy.takeDamage, spawnedEnemy, Enemy.new, List.lookup]
    norm_num
  · simp [Enemy.takeDamage, Enemy.new, List.lookup]
    norm_num

/-- C2 counterexample: in the legacy JavaScript component the cooldown
test IS scaled by the speed multiplier — with `lastShot = 0`, at wall-clock
time 600 ms the tower may shoot again under `gameSpeed = 2` (threshold
`1000 / 2 = 500` ms) but not under `gameSpeed = 1`, so a second projectile
can be produced 600 ms after the first, within one 1000 ms interval. -/
theorem cooldown_scaled_in_legacy :
    Tower.canShootJS (Tower.new 0 0 "basic") 600 2 = true
    ∧ Tower.canShootJS (Tower.new 0 0 "basic") 600 1 = false := by
  constructor <;> simp [Tower.canShootJS, Tower.new] <;> norm_num

/-- The targeting test of the game loop's tower phase: the enemy is
strictly within the tower's range (the source compares
`Math.hypot(enemy.x - tower.x, enemy.y - tower.y) < range`) and alive. -/
def inRange (tt : TowerType) (tw : Tower) (e : Enemy) : Bool :=
  decide (dist2 e.x e.y tw.x tw.y < tt.range * tt.range) && e.isAlive

/-- Target selection: `enemiesRef.current.find(...)` — the FIRST enemy in
the collection's iteration order passing the `inRange` test. -/
def findTarget (tt : TowerType) (tw : Tower) (es : List Enemy) : Option Enemy :=
  es.find? (inRange tt tw)

/-- One tower's action in a tick (game-loop lines 301-318): select a
target; if one exists and the cooldown test passes, reset `lastShot` to
`now` and emit a projectile aimed at the target's current position exactly
when the accuracy roll succeeds (`roll < accuracy`). -/
def towerStep (pcolor : String) (es : List Enemy) (t roll : Rat) (tw : Tower) :
    Tower × Option Projectile :=
  match towerTypes tw.type with
  | none => (tw, none)
  | some tt =>
      match findTarget tt tw es with
      | none => (tw, none)
      | some e =>
          if tw.canShoot t then
            (tw.shoot t,
             if roll < tt.accuracy then
               some { x := tw.x, y := tw.y, targetX := e.x, targetY := e.y,
                      damage := tt.damage, color := pcolor,
                      element := tt.element }
             else none)
          else (tw, none)

/-- C3: a tower with an eligible target that passes the strict cooldown
test has `lastShot` set to `now` whether or not the accuracy roll
succeeds; the roll decides only whether the projectile is created. -/
theorem attack_resets_lastShot (pcolor : String) (es : List Enemy)
    (t roll : Rat) (tw : Tower) (tt : TowerType) (e : Enemy)
    (hty : towerTypes tw.type = some tt)
    (hf : findTarget tt tw es = some e)
    (hc : tw.canShoot t = true) :
    (towerStep pcolor es t roll tw).1.lastShot = t
    ∧ (towerStep pcolor es t roll tw).2
        = (if roll < tt.accuracy then
            some { x := tw.x, y := tw.y, targetX := e.x, targetY := e.y,
                   damage := tt.damage, color := pcolor,
                   element := tt.element }
           else none) := by
  simp [towerStep, hty, hf, hc, Tower.shoot]

/-- A basic tower at the origin with a fresh cooldown. -/
def tw0 : Tower := Tower.new 0 0 "basic"

/-- An in-range enemy 60 px from the origin (basic range 100). -/
def eFar : Enemy := Enemy.new 60 0 100 []

/-- A nearer in-range enemy, 10 px from the origin. -/
def eNear : Enemy := Enemy.new 10 0 100 []

/-- C3 witness: at time 1001 (interval 1000, `lastShot` 0) with roll 0.5
against accuracy 0.8, the basic tower resets `lastShot` to 1001 and emits
the projectile. -/
theorem attack_resets_lastShot_witness :
    (towerStep "black" [eFar] 1001 0.5 tw0).1.lastShot = 1001
    ∧ (towerStep "black" [eFar] 1001 0.5 tw0).2
        = (if (0.5 : Rat) < basicType.accuracy then
            some { x := tw0.x, y := tw0.y, targetX := eFar.x,
                   targetY := eFar.y, damage := basicType.damage,
                   color := "black", element := basicType.element }
           else none) :=
  attack_resets_lastShot "black" [eFar] 1001 0.5 tw0 basicType eFar rfl
    (by simp [findTarget, inRange, dist2, eFar, Enemy.new, Enemy.isAlive,
              basicType, tw0, Tower.new]
        norm_num)
    (by simp [Tower.canShoot, tw0, Tower.new, towerTypes, basicType]
        norm_num)

/-- The first-match characterization of `List.find?`: a found element
occurs at some index, satisfies the predicate, and every earlier index
fails it. -/
theorem find?_first_characterization {α : Type} (p : α → Bool) :
    ∀ (l : List α) (a : α), l.find? p = some a →
      ∃ i, ∃ h : i < l.length, l.get ⟨i, h⟩ = a ∧ p a = true
        ∧ ∀ j, ∀ hj : j < i, p (l.get ⟨j, Nat.lt_trans hj h⟩) = false := by
  intro l
  induction l with
  | nil => intro a h; exact absurd h (by simp)
  | cons x xs ih =>
      intro a h
      rw [List.find?_cons] at h
      cases hx : p x with
      | true =>
          rw [hx] at h
          injection h with h
          subst h
          exact ⟨0, by simp, rfl, hx,
            fun j hj => absurd hj (Nat.not_lt_zero j)⟩
      | false =>
          rw [hx] at h
          obtain ⟨i, hi, hget, hpa, hbefore⟩ := ih a h
          refine ⟨i + 1, by simpa using Nat.succ_lt_succ hi, ?_, hpa, ?_⟩
          · simpa using hget
          · intro j hj
            cases j with
            | zero => simpa using hx
            | succ j' =>
                have hj' : j' < i := Nat.lt_of_succ_lt_succ hj
                simpa using hbefore j' hj'

/-- C6: the selected target is the first enemy, in the collection's
iteration order, that is strictly in range and alive — every
earlier-indexed enemy fails the test (so no nearest-enemy priority) — and
when no enemy passes, the tower does nothing that tick. -/
theorem target_first_in_order (pcolor : String) (es : List Enemy)
    (t roll : Rat) (tw : Tower) (tt : TowerType)
    (hty : towerTypes tw.type = some tt) :
    (findTarget tt tw es = none →
      towerStep pcolor es t roll tw = (tw, none))
    ∧ ∀ e, findTarget tt tw es = some e →
        ∃ i, ∃ h : i < es.length,
          es.get ⟨i, h⟩ = e ∧ inRange tt tw e = true
          ∧ ∀ j, ∀ hj : j < i,
              inRange tt tw (es.get ⟨j, Nat.lt_trans hj h⟩) = false := by
  constructor
  · intro hnone
    simp only [towerStep, hty, hnone]
  · intro e hf
    exact find?_first_characterization (inRange tt tw) es e hf

/-- C6 witness: with the farther enemy (60 px) listed before the nearer
one (10 px), both in range of the basic tower at the origin, the first
listed — not the nearest — is targeted. -/
theorem target_first_in_order_witness :
    (findTarget basicType tw0 [eFar, eNear] = none →
      towerStep "black" [eFar, eNear] 0 0 tw0 = (tw0, none))
    ∧ ∀ e, findTarget basicType tw0 [eFar, eNear] = some e →
        ∃ i, ∃ h : i < ([eFar, eNear] : List Enemy).length,
          ([eFar, eNear] : List Enemy).get ⟨i, h⟩ = e
          ∧ inRange basicType tw0 e = true
          ∧ ∀ j, ∀ hj : j < i,
              inRange basicType tw0
                (([eFar, eNear] : List Enemy).get ⟨j, Nat.lt_trans hj h⟩)
                = false :=
  target_first_in_order "black" [eFar, eNear] 0 0 tw0 basicType rfl

/-- Run a single tower through a sequence of ticks; each entry carries the
tick's wall-clock time, the enemy list it sees, and its accuracy roll.
Returns the final tower and the creation times of the projectiles it
produced, in order. -/
def runTowerTrace (pcolor : String) :
    Tower → List (Rat × List Enemy × Rat) → Tower × List Rat
  | tw, [] => (tw, [])
  | tw, (t, es, roll) :: rest =>
      let st := towerStep pcolor es t roll tw
      let tl := runTowerTrace pcolor st.1 rest
      (tl.1, (if st.2.isSome then [t] else []) ++ tl.2)

/-- `towerStep` preserves the tower's type, either keeps `lastShot` or
sets it to the current time exactly when the cooldown test passed, and
emits a projectile only after a passed cooldown test (which then also
stamps `lastShot` with the current time). -/
theorem towerStep_spec (pcolor : String) (es : List Enemy) (t roll : Rat)
    (tw : Tower) :
    (towerStep pcolor es t roll tw).1.type = tw.type
    ∧ ((towerStep pcolor es t roll tw).1.lastShot = tw.lastShot
       ∨ ((towerStep pcolor es t roll tw).1.lastShot = t
          ∧ tw.canShoot t = true))
    ∧ ((towerStep pcolor es t roll tw).2.isSome = true →
        tw.canShoot t = true
        ∧ (towerStep pcolor es t roll tw).1.lastShot = t) := by
  unfold towerStep
  split
  · exact ⟨rfl, Or.inl rfl, by simp⟩
  · split
    · exact ⟨rfl, Or.inl rfl, by simp⟩
    · split
      · next hc => exact ⟨rfl, Or.inr ⟨rfl, hc⟩, fun _ => ⟨hc, rfl⟩⟩
      · exact ⟨rfl, Or.inl rfl, by simp⟩

/-- A passed cooldown test means more than one attack interval of
wall-clock time elapsed since `lastShot`. -/
theorem canShoot_gap (tw : Tower) (t : Rat) (tt : TowerType)
    (hty : towerTypes tw.type = some tt) (hc : tw.canShoot t = true) :
    tt.attackSpeed < t - tw.lastShot := by
  simp only [Tower.canShoot, hty, decide_eq_true_eq] at hc
  exact hc

/-- Every projectile creation time along a trace lies more than one attack
interval after the tower's initial `lastShot`, provided the tick times are
nondecreasing and start no earlier than that `lastShot`. -/
theorem trace_emit_gap (pcolor : String) (tt : TowerType) :
    ∀ (trace : List (Rat × List Enemy × Rat)) (tw : Tower),
      towerTypes tw.type = some tt →
      (∀ s ∈ trace.map (fun x => x.1), tw.lastShot ≤ s) →
      (trace.map (fun x => x.1)).Pairwise (fun a b => a ≤ b) →
      ∀ u ∈ (runTowerTrace pcolor tw trace).2,
        tt.attackSpeed < u - tw.lastShot := by
  intro trace
  induction trace with
  | nil => intro tw _ _ _ u hu; simp [runTowerTrace] at hu
  | cons entry rest ih =>
      obtain ⟨t, es, roll⟩ := entry
      intro tw hty hlow hsorted u hu
      rw [List.map_cons] at hlow hsorted
      have hspec := towerStep_spec pcolor es t roll tw
      have hlowt : tw.lastShot ≤ t := hlow t (List.mem_cons_self t _)
      have hpair := List.pairwise_cons.mp hsorted
      have hty' : towerTypes (towerStep pcolor es t roll tw).1.type
          = some tt := by rw [hspec.1]; exact hty
      have hstep : ∀ s ∈ rest.map (fun x => x.1),
          (towerStep pcolor es t roll tw).1.lastShot ≤ s := by
        intro s hs
        rcases hspec.2.1 with h1 | ⟨h1, _⟩
        · rw [h1]
          exact hlow s (List.mem_cons_of_mem _ hs)
        · rw [h1]
          exact hpair.1 s hs
      have hmono : tw.lastShot ≤ (towerStep pcolor es t roll tw).1.lastShot := by
        rcases hspec.2.1 with h1 | ⟨h1, _⟩
        · rw [h1]
        · rw [h1]; exact hlowt
      simp only [runTowerTrace] at hu
      rw [List.mem_append] at hu
      cases hu with
      | inl hmem =>
          by_cases hem : (towerStep pcolor es t roll tw).2.isSome = true
          · rw [if_pos hem, List.mem_singleton] at hmem
            subst hmem
            exact canShoot_gap tw u tt hty (hspec.2.2 hem).1
          · rw [if_neg hem] at hmem
            simp at hmem
      | inr hmem =>
          have hlt := ih (towerStep pcolor es t roll tw).1 hty' hstep
            hpair.2 u hmem
          linarith

/-- C2 (amended): in the TypeScript component a tower's projectile
creation times along any trace with nondecreasing wall-clock tick times
are pairwise separated by strictly more than one `attackInterval`,
regardless of hit/miss outcomes; the cooldown test takes no
speed-multiplier input at all, so this holds at every game speed.  (The
legacy JavaScript component instead scales the threshold as
`1000 / gameSpeed` — see the counterexample.) -/
theorem tower_cooldown_gap (pcolor : String) (tt : TowerType) :
    ∀ (trace : List (Rat × List Enemy × Rat)) (tw : Tower),
      towerTypes tw.type = some tt →
      (∀ s ∈ trace.map (fun x => x.1), tw.lastShot ≤ s) →
      (trace.map (fun x => x.1)).Pairwise (fun a b => a ≤ b) →
      (runTowerTrace pcolor tw trace).2.Pairwise
        (fun a b => tt.attackSpeed < b - a) := by
  intro trace
  induction trace with
  | nil => intro tw _ _ _; simp [runTowerTrace]
  | cons entry rest ih =>
      obtain ⟨t, es, roll⟩ := entry
      intro tw hty hlow hsorted
      rw [List.map_cons] at hlow hsorted
      have hspec := towerStep_spec pcolor es t roll tw
      have hlowt : tw.lastShot ≤ t := hlow t (List.mem_cons_self t _)
      have hpair := List.pairwise_cons.mp hsorted
      have hty' : towerTypes (towerStep pcolor es t roll tw).1.type
          = some tt := by rw [hspec.1]; exact hty
      have hstep : ∀ s ∈ rest.map (fun x => x.1),
          (towerStep pcolor es t roll tw).1.lastShot ≤ s := by
        intro s hs
        rcases hspec.2.1 with h1 | ⟨h1, _⟩
        · rw [h1]
          exact hlow s (List.mem_cons_of_mem _ hs)
        · rw [h1]
          exact hpair.1 s hs
      simp only [runTowerTrace]
      by_cases hem : (towerStep pcolor es t roll tw).2.isSome = true
      · rw [if_pos hem, List.singleton_append, List.pairwise_cons]
        constructor
        · intro u hu
          have hlt := trace_emit_gap pcolor tt rest
            (towerStep pcolor es t roll tw).1 hty' hstep hpair.2 u hu
          have hts : (towerStep pcolor es t roll tw).1.lastShot = t :=
            (hspec.2.2 hem).2
          rw [hts] at hlt
          exact hlt
        · exact ih (towerStep pcolor es t roll tw).1 hty' hstep hpair.2
      · rw [if_neg hem, List.nil_append]
        exact ih (towerStep pcolor es t roll tw).1 hty' hstep hpair.2

/-- C2 witness: a fresh basic tower run at times 1001, 1200 and 2003 (all
nondecreasing, all past the initial `lastShot` of 0) with always-hitting
rolls; the resulting creation times are pairwise more than 1000 ms
apart. -/
theorem tower_cooldown_gap_witness :
    (runTowerTrace "black" tw0
      [(1001, [eFar], 0), (1200, [eFar], 0), (2003, [eFar], 0)]).2.Pairwise
      (fun a b => basicType.attackSpeed < b - a) :=
  tower_cooldown_gap "black" basicType
    [(1001, [eFar], 0), (1200, [eFar], 0), (2003, [eFar], 0)] tw0 rfl
    (by intro s hs
        simp [tw0, Tower.new] at hs ⊢
        rcases hs with h | h | h <;> rw [h] <;> norm_num)
    (by simp [List.pairwise_cons]
        norm_num)

/-- The projectile-arrival hit test (game-loop lines 326-328): the enemy
lies strictly within the 20 px hit-detection radius of the projectile's
frozen target point and is alive. -/
def hitPred (p : Projectile) (e : Enemy) : Bool :=
  decide (dist2 e.x e.y p.targetX p.targetY < 20 * 20) && e.isAlive

/-- Replace the first element satisfying the predicate — the in-place
mutation of the enemy found by `enemiesRef.current.find(...)`. -/
def updateFirst {α : Type} (p : α → Bool) (f : α → α) : List α → List α
  | [] => []
  | a :: as => if p a then f a :: as else a :: updateFirst p f as

/-- Damage application on projectile arrival: the first live enemy near
the frozen target point takes the projectile's elemental damage; if none
matches, the enemy list is untouched. -/
def handleArrival (es : List Enemy) (p : Projectile) : List Enemy :=
  updateFirst (hitPred p) (fun e => e.takeDamage p.damage p.element) es

/-- The projectile phase (game-loop lines 322-334): each projectile, in
order, either arrives (pre-move distance to its target point strictly
below 5 px), applies its hit to the current enemy list and is dropped, or
is kept after advancing by the injected `move`.  Damage from an earlier
projectile is visible to the liveness tests of later ones, as in the
source's sequential `filter`. -/
def projPhase (move : Projectile → Projectile) :
    List Projectile → List Enemy → List Projectile × List Enemy
  | [], es => ([], es)
  | p :: ps, es =>
      if dist2 p.x p.y p.targetX p.targetY < 5 * 5 then
        projPhase move ps (handleArrival es p)
      else
        let r := projPhase move ps es
        (move p :: r.1, r.2)

/-- `updateFirst` either leaves the list unchanged (no element matches) or
rewrites exactly the first matching element, leaving all others intact. -/
theorem updateFirst_spec {α : Type} (p : α → Bool) (f : α → α) :
    ∀ l : List α,
      ((∀ a ∈ l, p a = false) ∧ updateFirst p f l = l)
      ∨ ∃ i, ∃ h : i < l.length,
          p (l.get ⟨i, h⟩) = true
          ∧ (∀ j, ∀ hj : j < i, p (l.get ⟨j, Nat.lt_trans hj h⟩) = false)
          ∧ updateFirst p f l = l.set i (f (l.get ⟨i, h⟩)) := by
  intro l
  induction l with
  | nil => exact Or.inl ⟨by simp, rfl⟩
  | cons x xs ih =>
      by_cases hx : p x = true
      · right
        refine ⟨0, by simp, hx,
          fun j hj => absurd hj (Nat.not_lt_zero j), ?_⟩
        simp [updateFirst, hx]
      · have hx' : p x = false := by simpa using hx
        cases ih with
        | inl h =>
            left
            constructor
            · intro a ha
              rcases List.mem_cons.mp ha with rfl | ha'
              · exact hx'
              · exact h.1 a ha'
            · simp [updateFirst, hx', h.2]
        | inr h =>
            obtain ⟨i, hi, hpi, hbefore, heq⟩ := h
            right
            refine ⟨i + 1, by simpa using Nat.succ_lt_succ hi,
              by simpa using hpi, ?_, ?_⟩
            · intro j hj
              cases j with
              | zero => simpa using hx'
              | succ j' =>
                  have hb := hbefore j' (Nat.lt_of_succ_lt_succ hj)
                  simpa using hb
            · simp [updateFirst, hx', heq]

/-- C9: an arrived projectile damages at most one enemy — the first, in
the collection's iteration order, that is alive and within the 20 px
hit-detection radius of its frozen target point; every other enemy is left
untouched, and with no eligible enemy the list is unchanged.  Damage flows
through this single-target path for every projectile, whatever its element
— including `electric` projectiles of the `splash` archetype, which has no
area-damage branch. -/
theorem projectile_single_hit (es : List Enemy) (p : Projectile) :
    ((∀ e ∈ es, hitPred p e = false) ∧ handleArrival es p = es)
    ∨ ∃ i, ∃ h : i < es.length,
        hitPred p (es.get ⟨i, h⟩) = true
        ∧ (∀ j, ∀ hj : j < i,
            hitPred p (es.get ⟨j, Nat.lt_trans hj h⟩) = false)
        ∧ handleArrival es p
            = es.set i ((es.get ⟨i, h⟩).takeDamage p.damage p.element) :=
  updateFirst_spec (hitPred p) (fun e => e.takeDamage p.damage p.element) es

/-- A projectile whose frozen target point coincides with `eFar`. -/
def pHit : Projectile :=
  { x := 0, y := 0, targetX := 60, targetY := 0, damage := 10,
    color := "black", element := "fire" }

/-- C9 witness: the single-hit characterization instantiated on one
arrived projectile aimed at a live enemy. -/
theorem projectile_single_hit_witness :
    ((∀ e ∈ [eFar], hitPred pHit e = false)
      ∧ handleArrival [eFar] pHit = [eFar])
    ∨ ∃ i, ∃ h : i < ([eFar] : List Enemy).length,
        hitPred pHit (([eFar] : List Enemy).get ⟨i, h⟩) = true
        ∧ (∀ j, ∀ hj : j < i,
            hitPred pHit
              (([eFar] : List Enemy).get ⟨j, Nat.lt_trans hj h⟩) = false)
        ∧ handleArrival [eFar] pHit
            = ([eFar] : List Enemy).set i
                ((([eFar] : List Enemy).get ⟨i, h⟩).takeDamage
                  pHit.damage pHit.element) :=
  projectile_single_hit [eFar] pHit

/-- The end-of-tick economy and removal step (game-loop lines 379-386):
keep the enemies that are alive and short of the track end; for each
removed enemy — by death or by reaching the end alike — add 10 gold and
subtract one life. -/
def economyPhase (es : List Enemy) (gold lives : Int) :
    List Enemy × Int × Int :=
  let surviving := es.filter (fun e => e.isAlive && !e.reachedEnd)
  let defeated := es.length - surviving.length
  if defeated > 0 then
    (surviving, gold + (defeated : Int) * 10, lives - (defeated : Int))
  else
    (surviving, gold, lives)

/-- Counting helper: the elements a filter drops are exactly those whose
predicate fails. -/
theorem length_sub_length_filter {α : Type} (p : α → Bool) :
    ∀ l : List α,
      l.length - (l.filter p).length = l.countP (fun a => !p a) := by
  intro l
  induction l with
  | nil => rfl
  | cons x xs ih =>
      have hle := List.length_filter_le p xs
      cases hx : p x <;>
        simp [List.filter_cons, List.countP_cons, hx] <;> omega

/-- C4: in every tick, gold increases by exactly `10 * removedCount` and
lives decrease by exactly `removedCount`, where `removedCount` counts the
enemies removed for either cause — dead (`health ≤ 0`) or having reached
the track end — with no distinction between the two. -/
theorem removal_economy (es : List Enemy) (gold lives : Int) :
    (economyPhase es gold lives).2.1
      = gold + ((es.countP fun e => !e.isAlive || e.reachedEnd) : Int) * 10
    ∧ (economyPhase es gold lives).2.2
      = lives - ((es.countP fun e => !e.isAlive || e.reachedEnd) : Int) := by
  have hsub : es.length
        - (es.filter (fun e => e.isAlive && !e.reachedEnd)).length
      = es.countP (fun e => !(e.isAlive && !e.reachedEnd)) :=
    length_sub_length_filter _ es
  have hcongr : es.countP (fun e => !(e.isAlive && !e.reachedEnd))
      = es.countP (fun e => !e.isAlive || e.reachedEnd) := by
    apply List.countP_congr
    intro a _
    cases ha : a.isAlive <;> cases hb : a.reachedEnd <;> simp [ha, hb]
  simp only [economyPhase]
  by_cases hd : es.length
      - (es.filter (fun e => e.isAlive && !e.reachedEnd)).length > 0
  · rw [if_pos hd]
    constructor <;> dsimp only <;> rw [hsub, hcongr]
  · rw [if_neg hd]
    have h0 : es.countP (fun e => !e.isAlive || e.reachedEnd) = 0 := by
      omega
    constructor <;> dsimp only <;> rw [h0] <;> simp

/-- The in-range-and-off-cooldown guard of the tower phase, which decides
whether a tower consumes an accuracy roll this tick. -/
def towerGuard (es : List Enemy) (t : Rat) (tw : Tower) : Bool :=
  (match towerTypes tw.type with
   | some tt => (findTarget tt tw es).isSome
   | none => false) && tw.canShoot t

/-- The tower phase of a tick (game-loop lines 301-319): towers act in
creation order; each tower passing the guard consumes the next accuracy
roll from the stream and may append a projectile. -/
def towerPhase (pcolor : String) (es : List Enemy) (t : Rat)
    (rand : Nat → Rat) :
    List Tower → Nat → List Tower × List Projectile × Nat
  | [], k => ([], [], k)
  | tw :: tws, k =>
      if towerGuard es t tw then
        let st := towerStep pcolor es t (rand k) tw
        let r := towerPhase pcolor es t rand tws (k + 1)
        (st.1 :: r.1, st.2.toList ++ r.2.1, r.2.2)
      else
        let r := towerPhase pcolor es t rand tws k
        (tw :: r.1, r.2.1, r.2.2)

/-- One full simulation tick in the source's fixed order: move enemies,
run the tower phase against the moved enemies, run the projectile phase
over the old projectiles plus the just-emitted ones, then apply removal
and the economy deltas. -/
def tick (move : Projectile → Projectile) (pcolor : String) (speed t : Rat)
    (rand : Nat → Rat) (s : SimState) : SimState :=
  let es1 := s.enemies.map (fun e => e.update speed)
  let tp := towerPhase pcolor es1 t rand s.towers 0
  let pp := projPhase move (s.projectiles ++ tp.2.1) es1
  let ec := economyPhase pp.2 s.gold s.lives
  { s with towers := tp.1, enemies := ec.1, projectiles := pp.1,
           gold := ec.2.1, lives := ec.2.2 }

/-- The frame driver (game-loop lines 404-410): a scheduled `gameLoop`
invocation runs the full mutating tick unconditionally; the end-of-tick
game-over check `if (lives <= 0)` reads the closure-captured `lives` of
the render that registered the loop — the PRE-tick value, since `setLives`
only takes effect on the next render — so the step cancels future frames
only when lives were already `≤ 0` when the tick began. -/
def runStep (move : Projectile → Projectile) (pcolor : String)
    (speed t : Rat) (rand : Nat → Rat) (s : SimState) : SimState :=
  if s.scheduled then
    let s' := tick move pcolor speed t rand s
    if s.lives ≤ 0 then { s' with scheduled := false }
    else { s' with scheduled := true }
  else s

/-- The `useEffect` at lines 413-420: whenever any of its dependencies
changes (gold, lives, gameSpeed, language, placingTower, mousePosition,
theme), the cleanup cancels the pending frame and the effect body
unconditionally calls `requestAnimationFrame(gameLoop)` again — with no
check that lives are still positive. -/
def effectReschedule (s : SimState) : SimState :=
  { s with scheduled := true }

/-- A step on an unscheduled (terminal) state is the identity: nothing
runs, nothing mutates. -/
theorem runStep_unscheduled (move : Projectile → Projectile)
    (pcolor : String) (speed t : Rat) (rand : Nat → Rat) (s : SimState)
    (h : s.scheduled = false) :
    runStep move pcolor speed t rand s = s := by
  unfold runStep
  rw [if_neg (by simp [h])]

/-- An enemy one step short of the track end: it leaks on the next
tick. -/
def eLeak : Enemy :=
  { x := 796, y := 200, health := 300, maxHealth := 300, progress := 199,
    resistances := [] }

/-- An enemy at the track origin with a long walk ahead of it. -/
def eWalk : Enemy :=
  { x := 0, y := 200, health := 300, maxHealth := 300, progress := 0,
    resistances := [] }

/-- The last healthy moment: one life left, one enemy about to leak, one
enemy still walking, a frame scheduled. -/
def stBeforeOver : SimState :=
  { gold := 0, lives := 1, towers := [], enemies := [eLeak, eWalk],
    projectiles := [], placing := none, scheduled := true }

/-- C7: code-bug demonstration at a concrete input.  From `stBeforeOver`
(one life, a leaking enemy), the tick in which `lives` first drops to 0
still schedules a further step — the line-404 check reads the stale
pre-tick lives, 1 — and that further step runs a full mutating tick while
`lives = 0`: the surviving enemy moves from progress 1 to progress 2.
Only then does scheduling stop, and the line-413 effect re-run makes even
that terminal flag reversible, so the claimed immediate, mutation-free,
irreversible termination fails in the code. -/
theorem game_over_keeps_mutating :
    (runStep id "black" 1 5 (fun _ => 0) stBeforeOver).lives = 0
    ∧ (runStep id "black" 1 5 (fun _ => 0) stBeforeOver).scheduled = true
    ∧ (runStep id "black" 1 5 (fun _ => 0) stBeforeOver).enemies
        = [{ eWalk with progress := 1, x := 4 }]
    ∧ (runStep id "black" 1 6 (fun _ => 0)
         (runStep id "black" 1 5 (fun _ => 0) stBeforeOver)).enemies
        = [{ eWalk with progress := 2, x := 8 }]
    ∧ (runStep id "black" 1 6 (fun _ => 0)
         (runStep id "black" 1 5 (fun _ => 0) stBeforeOver)).scheduled
        = false
    ∧ (effectReschedule
         (runStep id "black" 1 6 (fun _ => 0)
           (runStep id "black" 1 5 (fun _ => 0) stBeforeOver))).scheduled
        = true := by
  have h1 : runStep id "black" 1 5 (fun _ => 0) stBeforeOver
      = { gold := 10, lives := 0, towers := [],
          enemies := [{ eWalk with progress := 1, x := 4 }],
          projectiles := [], placing := none, scheduled := true } := by
    norm_num [runStep, tick, towerPhase, projPhase, economyPhase,
      Enemy.update, Enemy.isAlive, Enemy.reachedEnd, stBeforeOver, eLeak,
      eWalk, List.filter_cons]
  have h2 : runStep id "black" 1 6 (fun _ => 0)
        (runStep id "black" 1 5 (fun _ => 0) stBeforeOver)
      = { gold := 10, lives := 0, towers := [],
          enemies := [{ eWalk with progress := 2, x := 8 }],
          projectiles := [], placing := none, scheduled := false } := by
    rw [h1]
    norm_num [runStep, tick, towerPhase, projPhase, economyPhase,
      Enemy.update, Enemy.isAlive, Enemy.reachedEnd, eWalk,
      List.filter_cons]
  rw [h2, h1]
  norm_num [effectReschedule]

end TDG
